import Mathlib

/-!
Shallow embedding of `AppleNotesExport.py` (the Apple Notes export tool).

Python strings are modelled as `List Char` (Python indexes and slices
strings by code point, which matches `List Char` positions).  Python
`s[p : p + l]` is `(s.drop p).take l`, Python string concatenation is list
append.  Python truthiness of an optional string (`None` and `""` are
falsy) is `pyTruthyS`; `a or b` on such values is `pyOr`.  Filesystem paths
are lists of path segments (`pathlib` drops empty segments, which is
modelled by conditionally omitting a segment).  External collaborators
(the sqlite database rows, the filesystem, `shutil.copy2` success,
`mimetypes.guess_extension`, and the two `zlib.decompress` variants) are
oracle functions collected in an `Env` / passed as parameters; everything
else is translated from the source.
-/

/-- Python `str.strip()` style truthiness helpers: `None` and `""` are falsy. -/
def pyTruthyS (o : Option (List Char)) : Bool :=
  match o with
  | none => false
  | some s => s ≠ []

/-- Python `a or b` for an optional string `a` and string `b`. -/
def pyOr (o : Option (List Char)) (b : List Char) : List Char :=
  match o with
  | none => b
  | some s => if s ≠ [] then s else b

/-- Python `str.strip()`: drop leading and trailing whitespace. -/
def pyStrip (l : List Char) : List Char :=
  ((l.dropWhile Char.isWhitespace).reverse.dropWhile Char.isWhitespace).reverse

/-- The reserved object-replacement code point stripped by the exporter
(`'￼'` in the source). -/
def objReplacementChar : Char := '￼'

/-! ## Data model: the parsed protobuf tree (`apple_notes_pb2` messages) -/

/-- The `attachmentInfo` submessage of an attribute run. -/
structure AttachmentInfo where
  attachmentIdentifier : List Char
  typeUti : List Char
deriving DecidableEq

/-- One `attributeRun` entry: a run `length` and an optional `attachmentInfo`. -/
structure AttributeRun where
  length : Nat
  attachmentInfo : Option AttachmentInfo
deriving DecidableEq

/-- The `document.note` message: a flat text buffer plus ordered runs. -/
structure NoteObj where
  noteText : List Char
  attributeRun : List AttributeRun
deriving DecidableEq

/-- The `document` message (optional `note`). -/
structure DocumentObj where
  note : Option NoteObj
deriving DecidableEq

/-- The top-level `NoteStoreProto` message (optional `document`). -/
structure NoteStoreProto where
  document : Option DocumentObj
deriving DecidableEq

/-! ## Run walker (`decode_note_protobuf` / `decode_note_protobuf_text_only`,
the per-run loop over `note.attributeRun`) -/

/-- The placeholder token emitted for a run with `attachmentInfo`
(`f"![ATTACHMENT|{id}|{uti}]"` in the source). -/
def attachmentToken (id uti : List Char) : List Char :=
  "![ATTACHMENT|".toList ++ id ++ "|".toList ++ uti ++ "]".toList

/-- The run loop of `decode_note_protobuf`: cursor `pos` into `content`,
each run appends either its slice `content[pos : pos + l]` or the
placeholder token, and advances the cursor by the run length. -/
def walkRuns (content : List Char) : List AttributeRun → Nat → List Char
  | [], _ => []
  | r :: rs, pos =>
    (match r.attachmentInfo with
     | some ai => attachmentToken ai.attachmentIdentifier ai.typeUti
     | none => (content.drop pos).take r.length) ++ walkRuns content rs (pos + r.length)

/-- The run loop of `decode_note_protobuf_text_only`: like `walkRuns` but a
run with `attachmentInfo` appends nothing. -/
def walkRunsTextOnly (content : List Char) : List AttributeRun → Nat → List Char
  | [], _ => []
  | r :: rs, pos =>
    (match r.attachmentInfo with
     | some _ => []
     | none => (content.drop pos).take r.length) ++ walkRunsTextOnly content rs (pos + r.length)

/-- The note-level part of `decode_note_protobuf`: walk the runs if there are
any, otherwise the whole `noteText` buffer is the output. -/
def reconstructPlaceholders (note : NoteObj) : List Char :=
  if note.attributeRun ≠ [] then walkRuns note.noteText note.attributeRun 0
  else note.noteText

/-- The note-level part of `decode_note_protobuf_text_only`: the text-only
walk, then `.replace('￼', '').strip()` applied to the result of either
branch. -/
def reconstructTextOnly (note : NoteObj) : List Char :=
  pyStrip ((if note.attributeRun ≠ [] then walkRunsTextOnly note.noteText note.attributeRun 0
            else note.noteText).filter (fun c => c ≠ objReplacementChar))

/-! ## Decompressor (`decompress_gzip_data`) and the decode pipeline.

The two `zlib.decompress` calls (the `wbits=16+MAX_WBITS` framed variant and
the plain variant) are external library behaviour, passed as oracles
`gz` and `raw` returning `none` exactly when the call raises `zlib.error`.
`parse` is the protobuf `ParseFromString` oracle, `none` when it raises. -/

/-- Model of `decompress_gzip_data`: try the framed variant, on failure retry the
plain variant, `None` if both fail. -/
def decompress_gzip_data (gz raw : List Nat → Option (List Nat)) (data : List Nat) :
    Option (List Nat) :=
  match gz data with
  | some out => some out
  | none => raw data

/-- Model of `decode_note_protobuf`: blob falsiness check, decompression (the result
of which is also checked for falsiness: `if not decompressed`), protobuf
parse, presence of `document.note`, then the run walk. -/
def decode_note_protobuf (gz raw : List Nat → Option (List Nat))
    (parse : List Nat → Option NoteStoreProto) (blob : Option (List Nat)) : List Char :=
  match blob with
  | none => "[No data blob]".toList
  | some b =>
    if b = [] then "[No data blob]".toList
    else
      match decompress_gzip_data gz raw b with
      | none => "[Decompression failed]".toList
      | some d =>
        if d = [] then "[Decompression failed]".toList
        else
          match parse d with
          | none => "[Proto decode error]".toList
          | some proto =>
            match proto.document with
            | none => "[Doc/Note not found in Proto]".toList
            | some doc =>
              match doc.note with
              | none => "[Doc/Note not found in Proto]".toList
              | some note => reconstructPlaceholders note

/-- Model of `decode_note_protobuf_text_only`: same pipeline, text-only walk. -/
def decode_note_protobuf_text_only (gz raw : List Nat → Option (List Nat))
    (parse : List Nat → Option NoteStoreProto) (blob : Option (List Nat)) : List Char :=
  match blob with
  | none => "[No data blob]".toList
  | some b =>
    if b = [] then "[No data blob]".toList
    else
      match decompress_gzip_data gz raw b with
      | none => "[Decompression failed]".toList
      | some d =>
        if d = [] then "[Decompression failed]".toList
        else
          match parse d with
          | none => "[Proto decode error]".toList
          | some proto =>
            match proto.document with
            | none => "[Doc/Note not found in Proto]".toList
            | some doc =>
              match doc.note with
              | none => "[Doc/Note not found in Proto]".toList
              | some note => reconstructTextOnly note

/-! ## Spec-side characterization of the run walk (for claim C1):
run cursor positions are the prefix sums of the run lengths, and each run
contributes independently at its own position. -/

/-- Sum of attribute-run lengths. -/
def sumLengths : List AttributeRun → Nat
  | [] => 0
  | r :: rs => r.length + sumLengths rs

/-- Cursor positions of the runs: `P_i` is the sum of the lengths of the runs
before run `i`, starting from `p`. -/
def runPositions (p : Nat) : List AttributeRun → List Nat
  | [] => []
  | r :: rs => p :: runPositions (p + r.length) rs

/-- Final cursor value after walking the runs from `p`. -/
def finalPos (p : Nat) : List AttributeRun → Nat
  | [] => p
  | r :: rs => finalPos (p + r.length) rs

/-- Contribution of one run at cursor position `p` in `WithPlaceholders`
mode: the slice for a plain run, the token (and none of the buffer
characters) for an attachment run. -/
def contribWP (content : List Char) (p : Nat) (r : AttributeRun) : List Char :=
  match r.attachmentInfo with
  | some ai => attachmentToken ai.attachmentIdentifier ai.typeUti
  | none => (content.drop p).take r.length

/-- Contribution of one run at cursor position `p` in `TextOnly` mode:
the slice for a plain run, nothing for an attachment run. -/
def contribTO (content : List Char) (p : Nat) (r : AttributeRun) : List Char :=
  match r.attachmentInfo with
  | some _ => []
  | none => (content.drop p).take r.length

/-! ## Attachment database rows and filesystem (external collaborators of
`get_attachment_and_media_details` / `find_attachment_source_path` /
`process_attachments`).  A filesystem path is a list of segments relative
to the data root `NOTES_DATA_PATH`. -/

/-- A filesystem path, as segments relative to the notes data root. -/
abbrev FsPath := List (List Char)

/-- The attachment row selected by
`SELECT Z_PK, ZTYPEUTI, ZMEDIA ... WHERE ZIDENTIFIER = ?`. -/
structure AttRow where
  pk : Nat
  typeUti : Option (List Char)
  mediaPk : Option Nat
deriving DecidableEq

/-- The media row selected by
`SELECT ZIDENTIFIER, ZFILENAME, ZGENERATION1 ... WHERE Z_PK = ?`. -/
structure MediaRow where
  ident : Option (List Char)
  filename : Option (List Char)
  generation : Option (List Char)
deriving DecidableEq

/-- A fallback re-query row (`ZIDENTIFIER` plus a generation column). -/
structure FallbackRow where
  ident : Option (List Char)
  gen : Option (List Char)
deriving DecidableEq

/-- The gallery re-query row (`ZIDENTIFIER, ZSIZEWIDTH, ZSIZEHEIGHT`). -/
structure GalleryRow where
  ident : Option (List Char)
  width : Option Nat
  height : Option Nat
deriving DecidableEq

/-- External world of one `process_attachments` call: database lookups,
filesystem existence, `shutil.copy2` success, `mimetypes.guess_extension`,
and the account UUID resolved by `get_account_uuid`. -/
structure Env where
  attByIdent : List Char → Option AttRow
  mediaByPk : Nat → Option MediaRow
  fallbackImageRow : Nat → Option FallbackRow
  fallbackPdfRow : Nat → Option FallbackRow
  galleryRow : Nat → Option GalleryRow
  fsExists : FsPath → Bool
  copyOk : FsPath → List Char → Bool
  mimeGuess : List Char → Option (List Char)
  accUuid : Option (List Char)

/-- Result tuple of `get_attachment_and_media_details`. -/
structure AttDetails where
  attPk : Option Nat
  uti : Option (List Char)
  medPk : Option Nat
  medId : Option (List Char)
  fname : Option (List Char)
  gen : Option (List Char)
deriving DecidableEq

/-- Model of `get_attachment_and_media_details`: look up the attachment row by
identifier (all-`None` tuple when the row is missing), then, when it links
a media row, look that up too. -/
def get_attachment_and_media_details (env : Env) (attach_id : List Char) : AttDetails :=
  match env.attByIdent attach_id with
  | none => ⟨none, none, none, none, none, none⟩
  | some row =>
    match row.mediaPk with
    | none => ⟨some row.pk, row.typeUti, none, none, none, none⟩
    | some mpk =>
      match env.mediaByPk mpk with
      | none => ⟨some row.pk, row.typeUti, some mpk, none, none, none⟩
      | some m => ⟨some row.pk, row.typeUti, some mpk, m.ident, m.filename, m.generation⟩

/-- Standard-media strategy of `find_attachment_source_path`:
`base/Media/mediaId/generation/filename` (the empty generation segment is
dropped by `pathlib`), falling back to `base/Media/mediaId/filename` when
a generation was present but that path does not exist. -/
def tryMedia (env : Env) (med_id fname gen : Option (List Char)) (base : FsPath) :
    Option FsPath :=
  if pyTruthyS med_id && pyTruthyS fname then
    let mid := med_id.getD []
    let fn := fname.getD []
    let g := if pyTruthyS gen then gen.getD [] else []
    let p := base ++ ["Media".toList, mid] ++ (if g = [] then [] else [g]) ++ [fn]
    if env.fsExists p then some p
    else if g ≠ [] then
      let p_no_g := base ++ ["Media".toList, mid, fn]
      if env.fsExists p_no_g then some p_no_g else none
    else none
  else none

/-- Drawing-family strategy of `find_attachment_source_path`: re-query for a
fallback-image identifier and generation, try
`base/FallbackImages/id/generation/FallbackImage.png` when a generation is
present. The subsequent `for ext in ["jpg", "png"]` loop in the source has
a bare assignment as its whole body, and the existence check sits after
the loop, so only the final `.png` candidate is ever tested. -/
def tryDrawing (env : Env) (att_pk : Nat) (uti : List Char) (base : FsPath) :
    Option FsPath :=
  if uti = "com.apple.drawing".toList ∨ uti = "com.apple.drawing.2".toList ∨
      uti = "com.apple.paper".toList then
    let row := (env.fallbackImageRow att_pk).getD ⟨none, none⟩
    if pyTruthyS row.ident then
      let a := row.ident.getD []
      let genHit : Option FsPath :=
        if pyTruthyS row.gen then
          let p := base ++ ["FallbackImages".toList, a, row.gen.getD [],
            "FallbackImage.png".toList]
          if env.fsExists p then some p else none
        else none
      match genHit with
      | some p => some p
      | none =>
        let p := base ++ ["FallbackImages".toList, a ++ ".png".toList]
        if env.fsExists p then some p else none
    else none
  else none

/-- Scanned-document-PDF strategy: re-query for a fallback-PDF identifier
and generation, try `base/FallbackPDFs/id/(gen or '')/FallbackPDF.pdf`
(the empty generation segment is dropped by `pathlib`). -/
def tryScanPdf (env : Env) (att_pk : Nat) (uti : List Char) (base : FsPath) :
    Option FsPath :=
  if uti = "com.apple.paper.doc.scan".toList then
    let row := (env.fallbackPdfRow att_pk).getD ⟨none, none⟩
    if pyTruthyS row.ident then
      let p := base ++ ["FallbackPDFs".toList, row.ident.getD []] ++
        (if pyTruthyS row.gen then [row.gen.getD []] else []) ++ ["FallbackPDF.pdf".toList]
      if env.fsExists p then some p else none
    else none
  else none

/-- Gallery-preview strategy: re-query for identifier, width and height,
try `base/Previews/id-1-{w}x{h}-0.jpeg`. -/
def tryGallery (env : Env) (att_pk : Nat) (uti : List Char) (base : FsPath) :
    Option FsPath :=
  if uti = "com.apple.notes.gallery".toList then
    let row := (env.galleryRow att_pk).getD ⟨none, none, none⟩
    if pyTruthyS row.ident && (row.width.getD 0 != 0) && (row.height.getD 0 != 0) then
      let p := base ++ ["Previews".toList,
        row.ident.getD [] ++ "-1-".toList ++ (toString (row.width.getD 0)).toList ++
          "x".toList ++ (toString (row.height.getD 0)).toList ++ "-0.jpeg".toList]
      if env.fsExists p then some p else none
    else none
  else none

/-- One base directory of `find_attachment_source_path`: the four
strategies in source order, first hit wins. -/
def tryBase (env : Env) (att_pk : Nat) (uti : List Char)
    (med_id fname gen : Option (List Char)) (base : FsPath) : Option FsPath :=
  match tryMedia env med_id fname gen base with
  | some p => some p
  | none =>
    match tryDrawing env att_pk uti base with
    | some p => some p
    | none =>
      match tryScanPdf env att_pk uti base with
      | some p => some p
      | none => tryGallery env att_pk uti base

/-- Model of `find_attachment_source_path`: candidate bases are the account-scoped
directory (when an account UUID is known) then the data root, in priority
order; within each base the four strategies run in order and the first
existing path anywhere is returned. -/
def find_attachment_source_path (env : Env) (att_pk : Nat) (uti : List Char)
    (med_id fname gen : Option (List Char)) : Option FsPath :=
  let bases : List FsPath :=
    (if pyTruthyS env.accUuid then [["Accounts".toList, env.accUuid.getD []]] else []) ++ [[]]
  bases.findSome? (tryBase env att_pk uti med_id fname gen)

/-! ## Extension choice and filename sanitization
(`get_extension_from_uti`, `sanitize_filename`, `pathlib` stem/suffix). -/

/-- Python substring test `needle in hay`. -/
def pyIn (needle hay : List Char) : Bool := decide (needle <:+: hay)

/-- The static `UTI_EXTENSIONS` table. -/
def UTI_EXTENSIONS : List (List Char × List Char) :=
  [("public.jpeg".toList, ".jpg".toList), ("public.png".toList, ".png".toList),
   ("public.gif".toList, ".gif".toList), ("public.tiff".toList, ".tiff".toList),
   ("com.adobe.pdf".toList, ".pdf".toList), ("public.plain-text".toList, ".txt".toList),
   ("public.rtf".toList, ".rtf".toList), ("public.url".toList, ".url".toList),
   ("public.vcard".toList, ".vcf".toList), ("com.apple.keynote.key".toList, ".key".toList),
   ("com.apple.keynote.kth".toList, ".kth".toList),
   ("com.apple.numbers.numbers".toList, ".numbers".toList),
   ("com.apple.pages.pages".toList, ".pages".toList),
   ("com.microsoft.word.doc".toList, ".doc".toList),
   ("org.openxmlformats.wordprocessingml.document".toList, ".docx".toList),
   ("com.microsoft.excel.xls".toList, ".xls".toList),
   ("org.openxmlformats.spreadsheetml.sheet".toList, ".xlsx".toList),
   ("com.microsoft.powerpoint.ppt".toList, ".ppt".toList),
   ("org.openxmlformats.presentationml.presentation".toList, ".pptx".toList),
   ("public.mpeg-4".toList, ".mp4".toList), ("public.mpeg-4-audio".toList, ".m4a".toList),
   ("public.mp3".toList, ".mp3".toList), ("com.apple.quicktime-movie".toList, ".mov".toList),
   ("com.apple.drawing".toList, ".png".toList), ("com.apple.drawing.2".toList, ".png".toList),
   ("com.apple.paper".toList, ".png".toList),
   ("com.apple.paper.doc.scan".toList, ".pdf".toList),
   ("com.apple.notes.gallery".toList, ".jpg".toList)]

/-- Final path component of a filename string (after the last `/`),
as used by `pathlib` for `stem` and `suffix`. -/
def pathName (f : List Char) : List Char :=
  (f.reverse.takeWhile (fun c => c ≠ '/')).reverse

/-- Python `pathlib` `Path(f).suffix`: the part of the name from its last dot,
provided that dot is neither the first nor the last character. -/
def pySuffix (f : List Char) : List Char :=
  let name := pathName f
  let ext := name.reverse.takeWhile (fun c => c ≠ '.')
  if ext.length < name.length ∧ ext.length ≠ 0 ∧ ext.length + 1 ≠ name.length then
    '.' :: ext.reverse
  else []

/-- Python `pathlib` `Path(f).stem`: the name with `pySuffix` removed. -/
def pyStem (f : List Char) : List Char :=
  let name := pathName f
  name.take (name.length - (pySuffix f).length)

/-- Model of `get_extension_from_uti`: static table, then `mimetypes.guess_extension`
(an oracle), then the fallback filename's own suffix when that filename is
truthy, else `.bin`. -/
def get_extension_from_uti (env : Env) (uti : List Char)
    (fallback_filename : Option (List Char)) : List Char :=
  match UTI_EXTENSIONS.lookup uti with
  | some ext => ext
  | none =>
    match env.mimeGuess uti with
    | some ext => ext
    | none =>
      if pyTruthyS fallback_filename then pySuffix (fallback_filename.getD [])
      else ".bin".toList

/-- Python `str.split()` (no argument): maximal non-whitespace words. -/
def pySplitWs (l : List Char) : List (List Char) :=
  match l with
  | [] => []
  | c :: rest =>
    if c.isWhitespace then pySplitWs rest
    else (c :: rest.takeWhile (fun x => !x.isWhitespace)) ::
      pySplitWs (rest.dropWhile (fun x => !x.isWhitespace))
termination_by l.length
decreasing_by
  · simp
  · have h := (List.dropWhile_suffix (l := rest) (fun x => !x.isWhitespace)).length_le
    simp only [List.length_cons]
    omega

/-- Model of `sanitize_filename` (with the default `allow_slashes=False`): keep
alphanumerics and space/underscore/hyphen, join the whitespace-split words
with underscores, truncate to 150 characters, strip, and fall back to
`"Untitled"` when empty. -/
def sanitize_filename (name : List Char) : List Char :=
  let sanitized := name.filter (fun c => c.isAlphanum || c ∈ [' ', '_', '-'])
  let joined := List.intercalate "_".toList (pySplitWs sanitized)
  let result := pyStrip (joined.take 150)
  if result = [] then "Untitled".toList else result

/-! ## Placeholder substitution (`process_attachments`): per-token
resolution body, then the regex scan-and-splice loop. -/

/-- The per-note memo table `processed_cache`:
identifier ↦ (destination filename or `None`, replacement text). -/
abbrev Cache := List (List Char × (Option (List Char) × List Char))

/-- The fixed `non_file` UTI set of `process_attachments`. -/
def nonFileUtis : List (List Char) :=
  ["com.apple.notes.table".toList,
   "com.apple.notes.inlinetextattachment.hashtag".toList,
   "com.apple.notes.inlinetextattachment.mention".toList,
   "com.apple.notes.inlinetextattachment.link".toList,
   "public.url".toList]

/-- The `img` classification substring list of `process_attachments`. -/
def imgKeys : List (List Char) :=
  ["image".toList, "jpeg".toList, "png".toList, "gif".toList, "tiff".toList,
   "scan".toList, "drawing".toList, "gallery".toList, "public.jpeg".toList,
   "public.png".toList, "public.tiff".toList, "public.gif".toList,
   "com.apple.drawing".toList, "com.apple.drawing.2".toList, "com.apple.paper".toList]

/-- The `pdf` classification substring list of `process_attachments`. -/
def pdfKeys : List (List Char) :=
  ["pdf".toList, "com.adobe.pdf".toList, "com.apple.paper.doc.scan".toList]

/-- The constant `ATTACHMENTS_SUBDIR`. -/
def attachmentsSubdir : List Char := "_attachments".toList

/-- Destination filename `f"{safe_stem}_{att_pk}{ext}"` for a located
attachment (from the media filename or, when that is falsy, the source
path's final component). -/
def destFname (env : Env) (d : AttDetails) (uti_ph : List Char) (src : FsPath) : List Char :=
  let base_fname := pyOr d.fname (src.getLastD [])
  sanitize_filename (pyStem base_fname) ++ "_".toList ++
    (toString (d.attPk.getD 0)).toList ++
    get_extension_from_uti env (pyOr d.uti uti_ph) (some base_fname)

/-- Relative path `_attachments/<dest>` rendered into the markup. -/
def relPathOf (dest : List Char) : List Char :=
  attachmentsSubdir ++ "/".toList ++ dest

/-- Alt text: the sanitized stem with underscores replaced by spaces. -/
def altTextOf (d : AttDetails) (src : FsPath) : List Char :=
  (sanitize_filename (pyStem (pyOr d.fname (src.getLastD [])))).map
    (fun c => if c = '_' then ' ' else c)

/-- Classification of a successfully copied attachment: image markup when
any `img` key is a substring of the lowercased effective UTI (this check
runs first), else PDF markup when any `pdf` key is, else generic file
markup. -/
def classifyRepl (eff_uti alt rel : List Char) : List Char :=
  let lower := eff_uti.map Char.toLower
  let is_img := imgKeys.any (fun i => pyIn i lower)
  let is_pdf := pdfKeys.any (fun i => pyIn i lower)
  if is_img then "![".toList ++ alt ++ "](".toList ++ rel ++ ")".toList
  else if is_pdf then "[".toList ++ alt ++ " (PDF)](".toList ++ rel ++ ")".toList
  else "[".toList ++ alt ++ " (File)](".toList ++ rel ++ ")".toList

/-- The per-token body of the `process_attachments` loop: non-file UTIs
short-circuit to an `[Unsupported: …]` marker, then the per-note memo is
consulted, then the database row (missing row ⇒ `[Att DB missing: …]`,
not memoized), then the source path (missing ⇒ `[Att source missing: …]`,
memoized), then the copy (failure ⇒ `[Error copy …]`, not memoized;
success ⇒ classified markup, memoized).  Returns the replacement text and
the updated memo. -/
def resolveOne (env : Env) (cache : Cache) (att_id uti_ph : List Char) :
    List Char × Cache :=
  if nonFileUtis.contains uti_ph then
    ("[Unsupported: ".toList ++ uti_ph ++ "]".toList, cache)
  else
    match cache.lookup att_id with
    | some entry => (entry.2, cache)
    | none =>
      let d := get_attachment_and_media_details env att_id
      if d.attPk.getD 0 = 0 then
        ("[Att DB missing: ".toList ++ att_id ++ "]".toList, cache)
      else
        let eff_uti := pyOr d.uti uti_ph
        match find_attachment_source_path env (d.attPk.getD 0) eff_uti d.medId d.fname d.gen with
        | some src =>
          let dest := destFname env d uti_ph src
          if env.copyOk src dest then
            let repl := classifyRepl eff_uti (altTextOf d src) (relPathOf dest)
            (repl, (att_id, (some dest, repl)) :: cache)
          else
            ("[Error copy ".toList ++ pyOr d.fname (src.getLastD []) ++ "]".toList, cache)
        | none =>
          let repl := "[Att source missing: ".toList ++ pyOr d.fname att_id ++ "]".toList
          (repl, (att_id, (none, repl)) :: cache)

/-- Literal head of the placeholder pattern
`!\[ATTACHMENT\|([^|]+)\|([^\]]+)\]`. -/
def tokenHead : List Char := "![ATTACHMENT|".toList

/-- Match of the placeholder regex at the front of `s`: the literal head,
then a maximal non-empty run of non-`|` characters followed by `|`
(group 1, the identifier), then a maximal non-empty run of non-`]`
characters followed by `]` (group 2, the UTI).  Because the character
classes exclude their own delimiters, the greedy groups are forced and
the regex match at a position is unique; returns the two groups and the
total match length. -/
def matchAt (s : List Char) : Option (List Char × List Char × Nat) :=
  if tokenHead.isPrefixOf s then
    let r := s.drop tokenHead.length
    let idc := r.takeWhile (fun c => c ≠ '|')
    if idc.length ≠ 0 ∧ idc.length < r.length then
      let r3 := r.drop (idc.length + 1)
      let utic := r3.takeWhile (fun c => c ≠ ']')
      if utic.length ≠ 0 ∧ utic.length < r3.length then
        some (idc, utic, tokenHead.length + idc.length + 1 + utic.length + 1)
      else none
    else none
  else none

/-- Model of `re.search(processed, offset)`: try each position from `pos` upward,
returning the first position where the pattern matches, with the groups
and the match length. -/
def searchAux : List Char → Nat → Option (Nat × List Char × List Char × Nat)
  | [], _ => none
  | c :: rest, pos =>
    match matchAt (c :: rest) with
    | some (id, uti, ml) => some (pos, id, uti, ml)
    | none => searchAux rest (pos + 1)

/-- Search the placeholder pattern in `text` starting at `offset`. -/
def searchFrom (text : List Char) (offset : Nat) :
    Option (Nat × List Char × List Char × Nat) :=
  searchAux (text.drop offset) offset

lemma matchAt_bounds {s id uti : List Char} {ml : Nat}
    (h : matchAt s = some (id, uti, ml)) : 0 < ml ∧ ml ≤ s.length := by
  unfold matchAt at h
  split at h
  case isFalse => exact absurd h (by simp)
  case isTrue hpre =>
    have hlen : tokenHead.length ≤ s.length :=
      List.IsPrefix.length_le (by simpa using hpre)
    dsimp only at h
    split at h
    case isFalse => exact absurd h (by simp)
    case isTrue h1 =>
      split at h
      case isFalse => exact absurd h (by simp)
      case isTrue h2 =>
        simp only [Option.some.injEq, Prod.mk.injEq] at h
        obtain ⟨-, -, hml⟩ := h
        obtain ⟨h1a, h1b⟩ := h1
        obtain ⟨h2a, h2b⟩ := h2
        have hd : (List.drop tokenHead.length s).length = s.length - tokenHead.length :=
          List.length_drop _ _
        have hd3 : (List.drop
            ((List.takeWhile (fun c => decide (c ≠ '|')) (List.drop tokenHead.length s)).length + 1)
            (List.drop tokenHead.length s)).length =
            (List.drop tokenHead.length s).length -
              ((List.takeWhile (fun c => decide (c ≠ '|'))
                (List.drop tokenHead.length s)).length + 1) :=
          List.length_drop _ _
        omega

lemma searchAux_bounds {l : List Char} :
    ∀ {pos st : Nat} {id uti : List Char} {ml : Nat},
      searchAux l pos = some (st, id, uti, ml) →
      pos ≤ st ∧ 0 < ml ∧ st + ml ≤ pos + l.length := by
  induction l with
  | nil => intro pos st id uti ml h; simp [searchAux] at h
  | cons c rest ih =>
    intro pos st id uti ml h
    rw [searchAux] at h
    split at h
    case h_1 id' uti' ml' hm =>
      obtain ⟨rfl, rfl, rfl, rfl⟩ : st = pos ∧ id = id' ∧ uti = uti' ∧ ml = ml' := by
        injection h with h'
        refine ⟨congrArg Prod.fst h'.symm, congrArg (fun x => x.2.1) h'.symm,
          congrArg (fun x => x.2.2.1) h'.symm, congrArg (fun x => x.2.2.2) h'.symm⟩
      have hb := matchAt_bounds hm
      simp only [List.length_cons] at hb ⊢
      omega
    case h_2 hm =>
      have hb := ih h
      simp only [List.length_cons]
      omega

lemma searchFrom_bounds {text : List Char} {offset st : Nat} {id uti : List Char} {ml : Nat}
    (h : searchFrom text offset = some (st, id, uti, ml)) :
    offset ≤ st ∧ 0 < ml ∧ st + ml ≤ text.length ∧ offset < text.length := by
  have hb := searchAux_bounds h
  have hne : text.drop offset ≠ [] := by
    intro hnil
    rw [searchFrom, hnil] at h
    simp [searchAux] at h
  have hlt : offset < text.length := by
    by_contra hge
    exact hne (List.drop_eq_nil_iff.mpr (by omega))
  have hdl : (text.drop offset).length = text.length - offset := List.length_drop _ _
  exact ⟨hb.1, hb.2.1, by omega, hlt⟩

/-- The scan-and-splice loop of `process_attachments`: find the next
placeholder token at or after `offset`, resolve it, splice the replacement
in at the match start, and resume the scan immediately after the
replacement text.  Terminates because the unscanned tail
`text.length - offset` shrinks at every step. -/
def subLoop (env : Env) (text : List Char) (offset : Nat) (cache : Cache) : List Char :=
  match hm : searchFrom text offset with
  | none => text
  | some (st, id, uti, ml) =>
    let rc := resolveOne env cache id uti
    subLoop env (text.take st ++ rc.1 ++ text.drop (st + ml)) (st + rc.1.length) rc.2
termination_by text.length - offset
decreasing_by
  have hb := searchFrom_bounds hm
  simp only [List.length_append, List.length_take, List.length_drop]
  have hmin : min st text.length = st := Nat.min_eq_left (by omega)
  omega

/-- Full `process_attachments` on an already-reconstructed text: the scan starts
at offset 0 with an empty per-note memo. -/
def process_attachments (env : Env) (text_placeholders : List Char) : List Char :=
  subLoop env text_placeholders 0 []

/-- Fuel-bounded variant of the scan-and-splice loop, `none` on fuel
exhaustion; used to state termination with an explicit bound. -/
def subLoopFuel (env : Env) : Nat → List Char → Nat → Cache → Option (List Char)
  | 0, _, _, _ => none
  | Nat.succ fuel, text, offset, cache =>
    match searchFrom text offset with
    | none => some text
    | some (st, id, uti, ml) =>
      let rc := resolveOne env cache id uti
      subLoopFuel env fuel (text.take st ++ rc.1 ++ text.drop (st + ml)) (st + rc.1.length) rc.2

/-- A trivial external world: no database rows, no files, no successful
copies, no MIME guesses, no account UUID. -/
def envNone : Env :=
  ⟨fun _ => none, fun _ => none, fun _ => none, fun _ => none, fun _ => none,
   fun _ => false, fun _ _ => false, fun _ => none, none⟩

/-- A world in which the attachment row resolves but its media filename is
itself a placeholder-shaped string and no file exists, so the substituted
error marker contains a full placeholder token. -/
def envTokenRepl : Env :=
  ⟨fun _ => some ⟨1, some "public.data".toList, some 9⟩,
   fun _ => some ⟨some "M".toList, some "![ATTACHMENT|a|b]".toList, none⟩,
   fun _ => none, fun _ => none, fun _ => none,
   fun _ => false, fun _ _ => false, fun _ => none, none⟩

/-- A world with an attachment row (primary key 2, UTI `public.jpeg`) but
no media row and no files on disk. -/
def envSrcMissing : Env :=
  ⟨fun _ => some ⟨2, some "public.jpeg".toList, none⟩,
   fun _ => none, fun _ => none, fun _ => none, fun _ => none,
   fun _ => false, fun _ _ => false, fun _ => none, none⟩

/-- The attachment details produced by `envSrcMissing` for any identifier. -/
def dSrcMissing : AttDetails := ⟨some 2, some "public.jpeg".toList, none, none, none, none⟩

/-! ## Title derivation (the `if not title:` block of
`export_note_to_markdown`). -/

/-- The summary/untitled fallback
`summary[:80].strip() if summary else f"Untitled_Note_{pk}"`. -/
def fallbackTitle (summary : Option (List Char)) (pk : Nat) : List Char :=
  if pyTruthyS summary then pyStrip ((summary.getD []).take 80)
  else "Untitled_Note_".toList ++ (toString pk).toList

/-- Title derivation of `export_note_to_markdown`: an explicit truthy title
wins; otherwise the first line of the stripped reconstructed text,
stripped, is used (truncated to 80) provided the content is non-blank and
that first line does not start with `![ATTACHMENT`; otherwise the
summary/untitled fallback. -/
def derive_title (title : Option (List Char)) (content_ph : List Char)
    (summary : Option (List Char)) (pk : Nat) : List Char :=
  if pyTruthyS title then title.getD []
  else if pyStrip content_ph ≠ [] then
    if ("![ATTACHMENT".toList.isPrefixOf
        (pyStrip ((pyStrip content_ph).takeWhile (fun c => c ≠ '\n')))) = false then
      if (pyStrip ((pyStrip content_ph).takeWhile (fun c => c ≠ '\n'))).take 80 ≠ [] then
        (pyStrip ((pyStrip content_ph).takeWhile (fun c => c ≠ '\n'))).take 80
      else fallbackTitle summary pk
    else fallbackTitle summary pk
  else fallbackTitle summary pk

/-- Title derivation as claim C6 words it: the title falls back to *the
first non-placeholder line* of the reconstructed text — i.e. scan the
(stripped, non-blank) lines for the first one that does not start with
`![ATTACHMENT` — truncated, before falling back to the snippet. -/
def derive_title_spec (title : Option (List Char)) (content_ph : List Char)
    (summary : Option (List Char)) (pk : Nat) : List Char :=
  if pyTruthyS title then title.getD []
  else
    match (((pyStrip content_ph).splitOn '\n').map pyStrip).filter (fun l => l ≠ [])
        |>.find? (fun l => !("![ATTACHMENT".toList.isPrefixOf l)) with
    | some l => l.take 80
    | none => fallbackTitle summary pk

/-- A world holding a scanned-document attachment (pk 3, UTI
`com.apple.paper.doc.scan`) whose fallback PDF exists and copies cleanly. -/
def envScan : Env :=
  ⟨fun _ => some ⟨3, some "com.apple.paper.doc.scan".toList, none⟩,
   fun _ => none, fun _ => none,
   fun _ => some ⟨some "U".toList, none⟩,
   fun _ => none,
   fun p => decide (p = ["FallbackPDFs".toList, "U".toList, "FallbackPDF.pdf".toList]),
   fun _ _ => true, fun _ => none, none⟩

/-- The attachment details produced by `envScan`. -/
def dScan : AttDetails := ⟨some 3, some "com.apple.paper.doc.scan".toList, none, none, none, none⟩

/-- The source path located by `envScan`. -/
def srcScan : FsPath := ["FallbackPDFs".toList, "U".toList, "FallbackPDF.pdf".toList]

/-- A world holding a drawing attachment (pk 4, UTI `com.apple.drawing`)
with fallback-image identifier `D`, no generation, and exactly one file on
disk: `FallbackImages/D.jpg`. -/
def envDrawing : Env :=
  ⟨fun _ => some ⟨4, some "com.apple.drawing".toList, none⟩,
   fun _ => none,
   fun _ => some ⟨some "D".toList, none⟩,
   fun _ => none, fun _ => none,
   fun p => decide (p = ["FallbackImages".toList, "D.jpg".toList]),
   fun _ _ => false, fun _ => none, none⟩

lemma walkRuns_eq_join (content : List Char) (runs : List AttributeRun) :
    ∀ p, walkRuns content runs p =
      (((runPositions p runs).zip runs).map (fun x => contribWP content x.1 x.2)).flatten := by
  induction runs with
  | nil => intro p; simp [walkRuns, runPositions]
  | cons r rs ih =>
    intro p
    simp only [walkRuns, runPositions, List.zip_cons_cons, List.map_cons, List.flatten_cons,
      contribWP, ih (p + r.length)]

lemma walkRunsTextOnly_eq_join (content : List Char) (runs : List AttributeRun) :
    ∀ p, walkRunsTextOnly content runs p =
      (((runPositions p runs).zip runs).map (fun x => contribTO content x.1 x.2)).flatten := by
  induction runs with
  | nil => intro p; simp [walkRunsTextOnly, runPositions]
  | cons r rs ih =>
    intro p
    simp only [walkRunsTextOnly, runPositions, List.zip_cons_cons, List.map_cons, List.flatten_cons,
      contribTO, ih (p + r.length)]

lemma sumLengths_append (a b : List AttributeRun) :
    sumLengths (a ++ b) = sumLengths a + sumLengths b := by
  induction a with
  | nil => simp [sumLengths]
  | cons r rs ih => simp [sumLengths, ih]; ring

lemma finalPos_eq (runs : List AttributeRun) : ∀ p, finalPos p runs = p + sumLengths runs := by
  induction runs with
  | nil => intro p; simp [finalPos, sumLengths]
  | cons r rs ih => intro p; simp [finalPos, sumLengths, ih]; ring

lemma runPositions_append (a b : List AttributeRun) :
    ∀ p, runPositions p (a ++ b) = runPositions p a ++ runPositions (p + sumLengths a) b := by
  induction a with
  | nil => intro p; simp [runPositions, sumLengths]
  | cons r rs ih =>
    intro p
    simp [runPositions, sumLengths, ih]
    ring_nf

lemma dropWhile_head_not {p : Char → Bool} :
    ∀ {l rest : List Char} {c : Char}, l.dropWhile p = c :: rest → p c = false := by
  intro l
  induction l with
  | nil => intro rest c h; simp [List.dropWhile] at h
  | cons a as ih =>
    intro rest c h
    rw [List.dropWhile_cons] at h
    split at h
    · exact ih h
    · next hpa =>
      obtain ⟨rfl, -⟩ : a = c ∧ as = rest := by
        exact ⟨(List.cons.injEq _ _ _ _ ▸ h).1, (List.cons.injEq _ _ _ _ ▸ h).2⟩
      simpa using hpa

lemma pyStrip_front_of_dropWhile (l : List Char) :
    pyStrip l <+: l.dropWhile Char.isWhitespace := by
  rw [pyStrip]
  refine List.reverse_suffix.mp ?_
  simpa using List.dropWhile_suffix
    (l := (l.dropWhile Char.isWhitespace).reverse) Char.isWhitespace

lemma pyStrip_head_not_ws {l rest : List Char} {c : Char}
    (h : pyStrip l = c :: rest) : c.isWhitespace = false := by
  have hp := pyStrip_front_of_dropWhile l
  rw [h] at hp
  obtain ⟨s, hs⟩ := hp
  exact @dropWhile_head_not Char.isWhitespace l (rest ++ s) c
    (by rw [← hs, List.cons_append])

lemma pyStrip_ne_nil_of_mem {l : List Char} {c : Char}
    (hc : c ∈ l) (hw : c.isWhitespace = false) : pyStrip l ≠ [] := by
  intro h
  rw [pyStrip, List.reverse_eq_nil_iff, List.dropWhile_eq_nil_iff] at h
  have hcd : c ∈ l.dropWhile Char.isWhitespace := by
    have hsplit := List.takeWhile_append_dropWhile Char.isWhitespace l
    rcases (List.mem_append.mp (hsplit ▸ hc)) with htk | hdr
    · exact absurd (List.mem_takeWhile_imp htk) (by simp [hw])
    · exact hdr
  exact absurd (h c (List.mem_reverse.mpr hcd)) (by simp [hw])

lemma potential_title_ne_nil {c : List Char} (h : pyStrip c ≠ []) :
    pyStrip ((pyStrip c).takeWhile (fun x => x ≠ '\n')) ≠ [] := by
  obtain ⟨c0, rest, h0⟩ : ∃ c0 rest, pyStrip c = c0 :: rest := by
    cases hh : pyStrip c with
    | nil => exact absurd hh h
    | cons a b => exact ⟨a, b, rfl⟩
  have hw : c0.isWhitespace = false := pyStrip_head_not_ws h0
  have hn : c0 ≠ '\n' := by
    intro he
    rw [he] at hw
    simp [Char.isWhitespace] at hw
  have htk : (pyStrip c).takeWhile (fun x => x ≠ '\n') =
      c0 :: rest.takeWhile (fun x => x ≠ '\n') := by
    rw [h0, List.takeWhile_cons, if_pos (by simpa using hn)]
  exact pyStrip_ne_nil_of_mem (htk ▸ List.mem_cons_self c0 _) hw

/-- Claim C1: For a note with a non-empty run list, the reconstruction is the
in-order concatenation of per-run contributions taken at the cursor
positions (prefix sums of run lengths, starting at 0): a plain run of
length `L` at cursor `P` contributes the slice `noteText[P : P + L]`, an
attachment run contributes the placeholder token
`![ATTACHMENT|id|uti]` in `WithPlaceholders` mode (copying none of the
buffer) and nothing in `TextOnly` mode; each run advances the cursor by
its length. -/
theorem C1_run_walk (note : NoteObj) (h : note.attributeRun ≠ []) :
    reconstructPlaceholders note =
      (((runPositions 0 note.attributeRun).zip note.attributeRun).map
        (fun x => contribWP note.noteText x.1 x.2)).flatten ∧
    reconstructTextOnly note =
      pyStrip (((((runPositions 0 note.attributeRun).zip note.attributeRun).map
        (fun x => contribTO note.noteText x.1 x.2)).flatten).filter
          (fun c => c ≠ objReplacementChar)) := by
  constructor
  · rw [reconstructPlaceholders, if_pos h, walkRuns_eq_join]
  · rw [reconstructTextOnly, if_pos h, walkRunsTextOnly_eq_join]

/-- Witness for C1 on the spec's example note shape: buffer
`"Before?After"` with a text run, an attachment run and a text run. -/
theorem C1_run_walk_witness :
    reconstructPlaceholders
      ⟨"Before?After".toList,
        [⟨6, none⟩, ⟨1, some ⟨"A1".toList, "public.jpeg".toList⟩⟩, ⟨5, none⟩]⟩ =
      (((runPositions 0
          [⟨6, none⟩, ⟨1, some ⟨"A1".toList, "public.jpeg".toList⟩⟩, ⟨5, none⟩]).zip
          [⟨6, none⟩, ⟨1, some ⟨"A1".toList, "public.jpeg".toList⟩⟩, ⟨5, none⟩]).map
        (fun x => contribWP "Before?After".toList x.1 x.2)).flatten ∧
    reconstructTextOnly
      ⟨"Before?After".toList,
        [⟨6, none⟩, ⟨1, some ⟨"A1".toList, "public.jpeg".toList⟩⟩, ⟨5, none⟩]⟩ =
      pyStrip (((((runPositions 0
          [⟨6, none⟩, ⟨1, some ⟨"A1".toList, "public.jpeg".toList⟩⟩, ⟨5, none⟩]).zip
          [⟨6, none⟩, ⟨1, some ⟨"A1".toList, "public.jpeg".toList⟩⟩, ⟨5, none⟩]).map
        (fun x => contribTO "Before?After".toList x.1 x.2)).flatten).filter
          (fun c => c ≠ objReplacementChar)) :=
  C1_run_walk
    ⟨"Before?After".toList,
      [⟨6, none⟩, ⟨1, some ⟨"A1".toList, "public.jpeg".toList⟩⟩, ⟨5, none⟩]⟩
    (by decide)

/-- Claim C8: Under the invariant that the run lengths sum to the buffer
length, the walk consumes exactly the buffer: the cursor of a run is the
sum of the lengths of the runs before it, the final cursor equals the
buffer length, every extracted slice has length exactly the run length,
and no read extends past the buffer end. -/
theorem C8_no_overrun (note : NoteObj) (pre post : List AttributeRun) (r : AttributeRun)
    (hsum : sumLengths note.attributeRun = note.noteText.length)
    (hdec : note.attributeRun = pre ++ r :: post) :
    finalPos 0 note.attributeRun = note.noteText.length ∧
    runPositions 0 note.attributeRun =
      runPositions 0 pre ++ sumLengths pre :: runPositions (sumLengths pre + r.length) post ∧
    sumLengths pre + r.length ≤ note.noteText.length ∧
    ((note.noteText.drop (sumLengths pre)).take r.length).length = r.length := by
  have hparts : sumLengths pre + (r.length + sumLengths post) = note.noteText.length := by
    rw [hdec, sumLengths_append] at hsum
    simpa [sumLengths] using hsum
  refine ⟨?_, ?_, ?_, ?_⟩
  · rw [finalPos_eq, hsum]; omega
  · rw [hdec, runPositions_append]
    simp [runPositions]
  · omega
  · simp only [List.length_take, List.length_drop]
    omega

/-- Witness for C8: a two-run note whose lengths sum to the buffer length. -/
theorem C8_no_overrun_witness :
    finalPos 0 (⟨"Hello World".toList, [⟨6, none⟩, ⟨5, none⟩]⟩ : NoteObj).attributeRun =
      "Hello World".toList.length ∧
    runPositions 0 [(⟨6, none⟩ : AttributeRun), ⟨5, none⟩] =
      runPositions 0 [⟨6, none⟩] ++ sumLengths [⟨6, none⟩] ::
        runPositions (sumLengths [⟨6, none⟩] + 5) [] ∧
    sumLengths [⟨6, none⟩] + 5 ≤ "Hello World".toList.length ∧
    (("Hello World".toList.drop (sumLengths [⟨6, none⟩])).take 5).length = 5 :=
  C8_no_overrun ⟨"Hello World".toList, [⟨6, none⟩, ⟨5, none⟩]⟩ [⟨6, none⟩] [] ⟨5, none⟩
    (by decide) (by decide)

/-- Claim C4: The decompressor tries the framed inflate first and falls back
to the second variant; it fails (returns no bytes) exactly when both
variants fail, and otherwise returns one variant's entire output (never a
partial mix).  A non-empty blob on which both variants fail decodes to
exactly the sentinel `"[Decompression failed]"`, and an empty or absent
blob is cut off before decompression with the `"[No data blob]"`
sentinel. -/
theorem C4_decompress (gz raw : List Nat → Option (List Nat))
    (parse : List Nat → Option NoteStoreProto) (b : List Nat)
    (hb : b ≠ []) (hgz : gz b = none) (hraw : raw b = none) :
    (∀ b', decompress_gzip_data gz raw b' = none ↔ gz b' = none ∧ raw b' = none) ∧
    (∀ b', decompress_gzip_data gz raw b' = gz b' ∨
      (gz b' = none ∧ decompress_gzip_data gz raw b' = raw b')) ∧
    decode_note_protobuf gz raw parse (some b) = "[Decompression failed]".toList ∧
    decode_note_protobuf_text_only gz raw parse (some b) = "[Decompression failed]".toList ∧
    decode_note_protobuf gz raw parse none = "[No data blob]".toList ∧
    decode_note_protobuf gz raw parse (some []) = "[No data blob]".toList := by
  have hdz : decompress_gzip_data gz raw b = none := by
    rw [decompress_gzip_data, hgz, hraw]
  refine ⟨?_, ?_, ?_, ?_, ?_, ?_⟩
  · intro b'
    rw [decompress_gzip_data]
    cases hg : gz b' with
    | none => simp
    | some o => simp
  · intro b'
    rw [decompress_gzip_data]
    cases hg : gz b' with
    | none => simp
    | some o => simp
  · rw [decode_note_protobuf, if_neg hb, hdz]
  · rw [decode_note_protobuf_text_only, if_neg hb, hdz]
  · rw [decode_note_protobuf]
  · rw [decode_note_protobuf, if_pos rfl]

/-- Witness for C4 with both strategies failing on the concrete blob `[0]`. -/
theorem C4_decompress_witness :
    (∀ b', decompress_gzip_data (fun _ => none) (fun _ => none) b' = none ↔
      (fun _ => (none : Option (List Nat))) b' = none ∧
      (fun _ => (none : Option (List Nat))) b' = none) ∧
    (∀ b', decompress_gzip_data (fun _ => none) (fun _ => none) b' =
        (fun _ => (none : Option (List Nat))) b' ∨
      ((fun _ => (none : Option (List Nat))) b' = none ∧
        decompress_gzip_data (fun _ => none) (fun _ => none) b' =
          (fun _ => (none : Option (List Nat))) b')) ∧
    decode_note_protobuf (fun _ => none) (fun _ => none) (fun _ => none) (some [0]) =
      "[Decompression failed]".toList ∧
    decode_note_protobuf_text_only (fun _ => none) (fun _ => none) (fun _ => none) (some [0]) =
      "[Decompression failed]".toList ∧
    decode_note_protobuf (fun _ => none) (fun _ => none) (fun _ => none) none =
      "[No data blob]".toList ∧
    decode_note_protobuf (fun _ => none) (fun _ => none) (fun _ => none) (some []) =
      "[No data blob]".toList :=
  C4_decompress (fun _ => none) (fun _ => none) (fun _ => none) [0]
    (by decide) rfl rfl

/-- Counterexample for claim C5: for a run-less note whose buffer is the single
object-replacement character, `WithPlaceholders` reconstruction returns the
buffer unchanged but `TextOnly` reconstruction does not (the code applies
`.replace('￼', '').strip()` to the `TextOnly` result of either branch),
refuting the claim that both modes return the buffer unchanged. -/
theorem C5_counterexample :
    reconstructPlaceholders ⟨[objReplacementChar], []⟩ =
      (⟨[objReplacementChar], []⟩ : NoteObj).noteText ∧
    reconstructTextOnly ⟨[objReplacementChar], []⟩ ≠
      (⟨[objReplacementChar], []⟩ : NoteObj).noteText := by
  constructor
  · rfl
  · decide

/-- Claim C5, amended: For a note with no attribute runs, `WithPlaceholders`
reconstruction returns the stored buffer unchanged; `TextOnly`
reconstruction returns the buffer with every object-replacement character
removed and surrounding whitespace stripped, and hence returns the buffer
unchanged exactly when those operations do not alter it. -/
theorem C5_no_runs (note : NoteObj) (h : note.attributeRun = []) :
    reconstructPlaceholders note = note.noteText ∧
    reconstructTextOnly note =
      pyStrip (note.noteText.filter (fun c => c ≠ objReplacementChar)) ∧
    ((∀ c ∈ note.noteText, c ≠ objReplacementChar) →
      pyStrip note.noteText = note.noteText →
      reconstructTextOnly note = note.noteText) := by
  refine ⟨?_, ?_, ?_⟩
  · rw [reconstructPlaceholders, if_neg (by simp [h])]
  · rw [reconstructTextOnly, if_neg (by simp [h])]
  · intro hall hstrip
    rw [reconstructTextOnly, if_neg (by simp [h])]
    have hfilter : note.noteText.filter (fun c => c ≠ objReplacementChar) = note.noteText := by
      rw [List.filter_eq_self]
      intro a ha
      simpa using hall a ha
    rw [hfilter, hstrip]

/-- Witness for C5 (amended) on a concrete run-less note. -/
theorem C5_no_runs_witness :
    reconstructPlaceholders ⟨"Plain note".toList, []⟩ = "Plain note".toList ∧
    reconstructTextOnly ⟨"Plain note".toList, []⟩ =
      pyStrip ("Plain note".toList.filter (fun c => c ≠ objReplacementChar)) ∧
    ((∀ c ∈ "Plain note".toList, c ≠ objReplacementChar) →
      pyStrip "Plain note".toList = "Plain note".toList →
      reconstructTextOnly ⟨"Plain note".toList, []⟩ = "Plain note".toList) :=
  C5_no_runs ⟨"Plain note".toList, []⟩ rfl

/-- Claim C7: The scan-and-splice loop terminates on every input: with fuel
exceeding the unscanned tail `text.length - offset`, the fuel-bounded loop
never exhausts its fuel and computes exactly the total loop.  The
statement is universal in the environment (hence in every replacement
text a resolution can produce), so it covers replacements that themselves
contain bracket characters resembling a placeholder token: the scan
resumes at `st + repl.length`, immediately after the replacement, and
never re-scans replaced content. -/
theorem C7_substitution_terminates (env : Env) :
    ∀ (fuel : Nat) (text : List Char) (offset : Nat) (cache : Cache),
      text.length - offset < fuel →
      subLoopFuel env fuel text offset cache = some (subLoop env text offset cache) := by
  intro fuel
  induction fuel with
  | zero => intro text offset cache h; omega
  | succ fuel ih =>
    intro text offset cache h
    rw [subLoopFuel, subLoop.eq_def]
    split
    · next heq =>
      split
      · rfl
      · next heq2 => rw [heq] at heq2; cases heq2
    · next st id uti ml heq =>
      split
      · next heq2 => rw [heq] at heq2; cases heq2
      · next st' id' uti' ml' heq2 =>
        rw [heq] at heq2
        simp only [Option.some.injEq, Prod.mk.injEq] at heq2
        obtain ⟨rfl, rfl, rfl, rfl⟩ := heq2
        exact ih _ _ _ (by
          have hb := searchFrom_bounds heq
          simp only [List.length_append, List.length_take, List.length_drop]
          have hmin : min st text.length = st := Nat.min_eq_left (by omega)
          omega)

/-- Witness for C7 on a concrete one-token text whose replacement contains
a full placeholder token. -/
theorem C7_substitution_terminates_witness :
    subLoopFuel envTokenRepl ("![ATTACHMENT|X|public.data]".toList.length + 1)
        "![ATTACHMENT|X|public.data]".toList 0 [] =
      some (subLoop envTokenRepl "![ATTACHMENT|X|public.data]".toList 0 []) :=
  C7_substitution_terminates envTokenRepl ("![ATTACHMENT|X|public.data]".toList.length + 1)
    "![ATTACHMENT|X|public.data]".toList 0 [] (by omega)

/-- Claim C9: A placeholder whose declared UTI is in the fixed non-file set is
replaced by `[Unsupported: <uti>]` with the memo unchanged, for every
environment (so no database or filesystem oracle influences the result:
no lookup happens); in particular the link UTI always yields
`[Unsupported: com.apple.notes.inlinetextattachment.link]`. -/
theorem C9_nonfile_unsupported :
    (∀ (env : Env) (cache : Cache) (att_id uti : List Char),
      nonFileUtis.contains uti = true →
      resolveOne env cache att_id uti =
        ("[Unsupported: ".toList ++ uti ++ "]".toList, cache)) ∧
    (∀ (env : Env) (cache : Cache) (att_id : List Char),
      resolveOne env cache att_id "com.apple.notes.inlinetextattachment.link".toList =
        ("[Unsupported: com.apple.notes.inlinetextattachment.link]".toList, cache)) := by
  have hbase : ∀ (env : Env) (cache : Cache) (att_id uti : List Char),
      nonFileUtis.contains uti = true →
      resolveOne env cache att_id uti =
        ("[Unsupported: ".toList ++ uti ++ "]".toList, cache) := by
    intro env cache att_id uti h
    rw [resolveOne, if_pos h]
  refine ⟨hbase, ?_⟩
  intro env cache att_id
  have hs : "[Unsupported: ".toList ++ "com.apple.notes.inlinetextattachment.link".toList ++
      "]".toList = "[Unsupported: com.apple.notes.inlinetextattachment.link]".toList := by
    decide
  rw [hbase env cache att_id "com.apple.notes.inlinetextattachment.link".toList (by decide), hs]

/-- Witness for C9 on the concrete non-file UTI `public.url`. -/
theorem C9_nonfile_unsupported_witness :
    resolveOne envNone [] "A".toList "public.url".toList =
      ("[Unsupported: ".toList ++ "public.url".toList ++ "]".toList, ([] : Cache)) :=
  C9_nonfile_unsupported.1 envNone [] "A".toList "public.url".toList (by decide)

/-- Counterexample for claim C3: a resolution that fails with a missing
database row leaves the per-note memo table unchanged (here: still empty),
so a failed identifier is *not* always recorded as a failure; a second
placeholder with the same identifier repeats the database lookup. -/
theorem C3_counterexample :
    (resolveOne envNone [] "A1".toList "public.jpeg".toList).1 =
      "[Att DB missing: A1]".toList ∧
    (resolveOne envNone [] "A1".toList "public.jpeg".toList).2 = [] := by
  decide

/-- Claim C3, amended: Within one note, memoization is partial: a memo hit
returns the recorded replacement with the memo unchanged, independently of
the environment (so no further database or filesystem lookup); a
source-missing failure and a successful copy are recorded; but a
DB-missing failure and a copy error leave the memo unchanged and are
re-resolved at each further placeholder with that identifier. -/
theorem C3_memoization :
    (∀ (env env' : Env) (cache : Cache) (att_id uti : List Char)
        (entry : Option (List Char) × List Char),
      nonFileUtis.contains uti = false →
      cache.lookup att_id = some entry →
      resolveOne env cache att_id uti = (entry.2, cache) ∧
      resolveOne env' cache att_id uti = (entry.2, cache)) ∧
    (∀ (env : Env) (cache : Cache) (att_id uti : List Char),
      nonFileUtis.contains uti = false →
      cache.lookup att_id = none →
      (get_attachment_and_media_details env att_id).attPk.getD 0 = 0 →
      resolveOne env cache att_id uti =
        ("[Att DB missing: ".toList ++ att_id ++ "]".toList, cache)) ∧
    (∀ (env : Env) (cache : Cache) (att_id uti : List Char) (d : AttDetails),
      nonFileUtis.contains uti = false →
      cache.lookup att_id = none →
      get_attachment_and_media_details env att_id = d →
      d.attPk.getD 0 ≠ 0 →
      find_attachment_source_path env (d.attPk.getD 0) (pyOr d.uti uti) d.medId d.fname d.gen
        = none →
      resolveOne env cache att_id uti =
        ("[Att source missing: ".toList ++ pyOr d.fname att_id ++ "]".toList,
          (att_id, (none, "[Att source missing: ".toList ++ pyOr d.fname att_id ++ "]".toList))
            :: cache)) ∧
    (∀ (env : Env) (cache : Cache) (att_id uti : List Char) (d : AttDetails) (src : FsPath),
      nonFileUtis.contains uti = false →
      cache.lookup att_id = none →
      get_attachment_and_media_details env att_id = d →
      d.attPk.getD 0 ≠ 0 →
      find_attachment_source_path env (d.attPk.getD 0) (pyOr d.uti uti) d.medId d.fname d.gen
        = some src →
      env.copyOk src (destFname env d uti src) = false →
      resolveOne env cache att_id uti =
        ("[Error copy ".toList ++ pyOr d.fname (src.getLastD []) ++ "]".toList, cache)) := by
  refine ⟨?_, ?_, ?_, ?_⟩
  · intro env env' cache att_id uti entry h1 h2
    constructor <;> · rw [resolveOne, if_neg (by simpa using h1)]; simp only [h2]
  · intro env cache att_id uti h1 h2 h3
    rw [resolveOne, if_neg (by simpa using h1)]
    simp only [h2]
    rw [if_pos h3]
  · intro env cache att_id uti d h1 h2 hd h3 h4
    rw [resolveOne, if_neg (by simpa using h1)]
    simp only [h2, hd]
    rw [if_neg h3]
    simp only [h4]
  · intro env cache att_id uti d src h1 h2 hd h3 h4 h5
    rw [resolveOne, if_neg (by simpa using h1)]
    simp only [h2, hd]
    rw [if_neg h3]
    simp only [h4]
    rw [if_neg (by simp [h5])]

/-- Witness for C3 (amended): a source-missing failure is recorded in the
memo table. -/
theorem C3_memoization_witness :
    resolveOne envSrcMissing [] "A1".toList "public.jpeg".toList =
      ("[Att source missing: ".toList ++ pyOr dSrcMissing.fname "A1".toList ++ "]".toList,
        [("A1".toList, (none,
          "[Att source missing: ".toList ++ pyOr dSrcMissing.fname "A1".toList ++ "]".toList))]) :=
  C3_memoization.2.2.1 envSrcMissing [] "A1".toList "public.jpeg".toList dSrcMissing
    (by decide) (by decide) (by decide) (by decide) (by decide)

/-- Counterexample for claim C6: with no explicit title, content whose first
line is a placeholder but whose second line is plain text, and a snippet
present, the code takes the snippet while the claim's "first
non-placeholder line" reading takes the second line. -/
theorem C6_counterexample :
    derive_title none "![ATTACHMENT|a|b]\nHello".toList (some "Snip".toList) 7 =
      "Snip".toList ∧
    derive_title_spec none "![ATTACHMENT|a|b]\nHello".toList (some "Snip".toList) 7 =
      "Hello".toList ∧
    derive_title none "![ATTACHMENT|a|b]\nHello".toList (some "Snip".toList) 7 ≠
      derive_title_spec none "![ATTACHMENT|a|b]\nHello".toList (some "Snip".toList) 7 := by
  refine ⟨by decide, by decide, by decide⟩

/-- Claim C6, amended: The exported title is the explicit title when truthy;
otherwise, when the reconstructed text is non-blank and its *first* line
(after stripping) does not start with `![ATTACHMENT`, that line truncated
to 80 characters; otherwise (including when the first line is a
placeholder, even if later lines are plain text) the snippet truncated to
80 and stripped when the snippet is truthy, else `Untitled_Note_<pk>`.
In particular buffer `"Hello World"` with one run of length 11 and no
explicit title reconstructs to `"Hello World"` and is titled
`"Hello World"`. -/
theorem C6_title_derivation :
    (∀ (t : Option (List Char)) (c : List Char) (s : Option (List Char)) (pk : Nat),
      pyTruthyS t = true → derive_title t c s pk = t.getD []) ∧
    (∀ (t : Option (List Char)) (c : List Char) (s : Option (List Char)) (pk : Nat),
      pyTruthyS t = false → pyStrip c ≠ [] →
      ("![ATTACHMENT".toList.isPrefixOf
        (pyStrip ((pyStrip c).takeWhile (fun x => x ≠ '\n')))) = false →
      derive_title t c s pk =
        (pyStrip ((pyStrip c).takeWhile (fun x => x ≠ '\n'))).take 80) ∧
    (∀ (t : Option (List Char)) (c : List Char) (s : Option (List Char)) (pk : Nat),
      pyTruthyS t = false →
      (pyStrip c = [] ∨
        ("![ATTACHMENT".toList.isPrefixOf
          (pyStrip ((pyStrip c).takeWhile (fun x => x ≠ '\n')))) = true) →
      derive_title t c s pk = fallbackTitle s pk) ∧
    (∀ (s : Option (List Char)) (pk : Nat),
      pyTruthyS s = true → fallbackTitle s pk = pyStrip ((s.getD []).take 80)) ∧
    (∀ (s : Option (List Char)) (pk : Nat),
      pyTruthyS s = false →
      fallbackTitle s pk = "Untitled_Note_".toList ++ (toString pk).toList) ∧
    (reconstructPlaceholders ⟨"Hello World".toList, [⟨11, none⟩]⟩ = "Hello World".toList ∧
      derive_title none "Hello World".toList none 5 = "Hello World".toList) := by
  refine ⟨?_, ?_, ?_, ?_, ?_, by decide, by decide⟩
  · intro t c s pk ht
    rw [derive_title, if_pos ht]
  · intro t c s pk ht hc hpre
    rw [derive_title, if_neg (by simp [ht]), if_pos hc, if_pos hpre,
      if_pos (by
        have := potential_title_ne_nil hc
        simpa [List.take_eq_nil_iff] using this)]
  · intro t c s pk ht hcase
    rcases hcase with hnil | hpre
    · rw [derive_title, if_neg (by simp [ht]), if_neg (by simp [hnil])]
    · rw [derive_title, if_neg (by simp [ht]), if_pos ?_, if_neg (by rw [hpre]; simp)]
      intro hn
      rw [hn] at hpre
      exact absurd hpre (by decide)
  · intro s pk hs
    rw [fallbackTitle, if_pos hs]
  · intro s pk hs
    rw [fallbackTitle, if_neg (by simp [hs])]

/-- Witness for C6 (amended): a plain first line becomes the title. -/
theorem C6_title_derivation_witness :
    derive_title none "My Title".toList (some "S".toList) 3 =
      (pyStrip ((pyStrip "My Title".toList).takeWhile (fun x => x ≠ '\n'))).take 80 :=
  C6_title_derivation.2.1 none "My Title".toList (some "S".toList) 3
    (by decide) (by decide) (by decide)

/-- Claim C10: A located and successfully copied attachment whose effective
UTI contains `"scan"` case-insensitively receives the embedded-image
markup `![alt](rel)` — never the PDF link form — because `classifyRepl`
consults the image substring list (which contains `"scan"`) before the
PDF list. -/
theorem C10_scan_uti_image_markup (env : Env) (cache : Cache) (att_id uti_ph : List Char)
    (d : AttDetails) (src : FsPath)
    (h1 : nonFileUtis.contains uti_ph = false)
    (h2 : cache.lookup att_id = none)
    (hd : get_attachment_and_media_details env att_id = d)
    (h3 : d.attPk.getD 0 ≠ 0)
    (h4 : find_attachment_source_path env (d.attPk.getD 0) (pyOr d.uti uti_ph)
        d.medId d.fname d.gen = some src)
    (h5 : env.copyOk src (destFname env d uti_ph src) = true)
    (hscan : pyIn "scan".toList ((pyOr d.uti uti_ph).map Char.toLower) = true) :
    resolveOne env cache att_id uti_ph =
      ("![".toList ++ altTextOf d src ++ "](".toList ++
          relPathOf (destFname env d uti_ph src) ++ ")".toList,
        (att_id, (some (destFname env d uti_ph src),
          "![".toList ++ altTextOf d src ++ "](".toList ++
            relPathOf (destFname env d uti_ph src) ++ ")".toList)) :: cache) := by
  rw [resolveOne, if_neg (by simpa using h1)]
  simp only [h2, hd]
  rw [if_neg h3]
  simp only [h4]
  rw [if_pos h5]
  have himg : imgKeys.any (fun i => pyIn i ((pyOr d.uti uti_ph).map Char.toLower)) = true := by
    rw [List.any_eq_true]
    exact ⟨"scan".toList, by decide, hscan⟩
  simp [classifyRepl, himg]

/-- Witness for C10 with the scanned-document PDF UTI
`com.apple.paper.doc.scan`. -/
theorem C10_scan_uti_image_markup_witness :
    resolveOne envScan [] "S".toList "com.apple.paper.doc.scan".toList =
      ("![".toList ++ altTextOf dScan srcScan ++ "](".toList ++
          relPathOf (destFname envScan dScan "com.apple.paper.doc.scan".toList srcScan) ++
          ")".toList,
        [("S".toList, (some (destFname envScan dScan "com.apple.paper.doc.scan".toList srcScan),
          "![".toList ++ altTextOf dScan srcScan ++ "](".toList ++
            relPathOf (destFname envScan dScan "com.apple.paper.doc.scan".toList srcScan) ++
            ")".toList))]) :=
  C10_scan_uti_image_markup envScan [] "S".toList "com.apple.paper.doc.scan".toList
    dScan srcScan (by decide) (by decide) (by decide) (by decide) (by decide) (by decide)
    (by decide)

/-- Claim C2, code-bug evaluation: The fallback image `FallbackImages/D.jpg` exists,
yet the locator returns nothing for the drawing: the source's
`for ext in ["jpg", "png"]` loop has a bare assignment as its entire body
and the existence check runs only after the loop, so only the final
`FallbackImages/D.png` candidate is ever tested and the `.jpg` candidate
promised by the claim (and intended by the loop) is skipped. -/
theorem C2_jpg_fallback_skipped :
    envDrawing.fsExists ["FallbackImages".toList, "D".toList ++ ".jpg".toList] = true ∧
    tryDrawing envDrawing 4 "com.apple.drawing".toList [] = none ∧
    find_attachment_source_path envDrawing 4 "com.apple.drawing".toList none none none =
      none := by
  refine ⟨by decide, by decide, by decide⟩
